import Mathlib

/-!
Verification development for the jquery.class single-inheritance layer
(src/jquery.class.js): a shallow embedding of the member-classification loop of
the prototype builder, the super-alias resolver, the hookable wrapper, the
constructor wiring, and the base Class option accessors, together with theorems
settling the specified properties.
-/

set_option autoImplicit false

namespace JQueryClass

/-- A function literal as the extend loop sees it: an identity tag and whether
its source text matches the detection regex for the parent-call alias
(`fnTest = /\b_super\b/`, line 19; the environment supports function
decompilation, so the degenerate `/.*/` branch is dead). -/
structure FnLit where
  id : Nat
  refsSuper : Bool
deriving DecidableEq, Repr

/-- JavaScript values as far as the extend loop and the base Class observe
them: `undefined`, `null`, primitives, object references (heap addresses) and
function literals. -/
inductive JSVal where
  | undef
  | null
  | boolean (b : Bool)
  | num (n : Int)
  | str (s : String)
  | ref (a : Nat)
  | fn (f : FnLit)
deriving DecidableEq, Repr

/-- The `typeof` operator on the embedded values. Note `typeof null` is
the string "object", as in JavaScript. -/
def typeofJS : JSVal → String
  | .undef => "undefined"
  | .null => "object"
  | .boolean _ => "boolean"
  | .num _ => "number"
  | .str _ => "string"
  | .ref _ => "object"
  | .fn _ => "function"

/-- An object is a finite association of property names to values (insertion
order kept, keys unique by construction in the program's objects). -/
abbrev Obj := List (String × JSVal)

/-- Property read: first entry with the key, `undefined` when absent. -/
def objGet : Obj → String → JSVal
  | [], _ => .undef
  | (k', v) :: t, k => if k' = k then v else objGet t k

/-- Property write: replace the first entry with the key, append when absent. -/
def objSet : Obj → String → JSVal → Obj
  | [], k, v => [(k, v)]
  | (k', v') :: t, k, v => if k' = k then (k, v) :: t else (k', v') :: objSet t k v

/-- Whether the object has an entry for the key. -/
def objHasKey (o : Obj) (k : String) : Bool :=
  o.any fun kv => kv.1 = k

/-- The heap maps addresses to objects; objects are mutated through it. -/
abbrev Heap := Nat → Obj

/-- The empty heap: every address holds the empty object. -/
def emptyHeap : Heap := fun _ => []

/-- Heap update at one address. -/
def heapSet (h : Heap) (a : Nat) (o : Obj) : Heap :=
  fun x => if x = a then o else h x

theorem objGet_objSet (o : Obj) (k k' : String) (v : JSVal) :
    objGet (objSet o k v) k' = if k = k' then v else objGet o k' := by
  induction o with
  | nil =>
      by_cases hk : k = k' <;> simp [objSet, objGet, hk]
  | cons kv t ih =>
      obtain ⟨k₀, v₀⟩ := kv
      by_cases h₀ : k₀ = k
      · subst h₀
        by_cases hk : k₀ = k' <;> simp [objSet, objGet, hk]
      · by_cases hk : k₀ = k'
        · subst hk
          have : ¬ k = k₀ := fun h => h₀ h.symm
          simp [objSet, objGet, h₀, this]
        · simp [objSet, objGet, h₀, hk, ih]

@[simp] theorem heapSet_same (h : Heap) (a : Nat) (o : Obj) :
    heapSet h a o a = o := by
  simp [heapSet]

theorem heapSet_other (h : Heap) (a b : Nat) (o : Obj) (hne : b ≠ a) :
    heapSet h a o b = h b := by
  simp [heapSet, hne]

/-! ### Member classification: the copy loop of `_Class.extend` (lines 116-147)

For each name in the override map the source evaluates one ternary chain:

  prototype[name] =
    typeof prop[name] == "function" && typeof _super[name] == "function"
      && fnTest.test(prop[name]) ? (super wrapper closure)
    : typeof prop[name] == 'function' ? hookable(prop[name])
    : typeof prop[name] == 'object' && typeof _super[name] == 'object'
      ? jQuery.extend(true, _super[name], prop[name])
    : prop[name]
-/

/-- The classified outcome for one member of the override map. -/
inductive MemberKind where
  /-- the parent-delegating wrapper closure over `(name, fn)` (lines 123-138) -/
  | superWrapped (name : String) (f : FnLit)
  /-- `hookable(prop[name])`: a fresh wrapper whose hook registry starts with
  the given before and after lists (empty at creation, lines 32-35) -/
  | hooked (f : FnLit) (before after : List FnLit)
  /-- `jQuery.extend(true, _super[name], prop[name])`: the merge expression
  applied to the base member and the override -/
  | merged (base over : JSVal)
  /-- direct assignment of the override value -/
  | direct (v : JSVal)
deriving DecidableEq, Repr

/-- The test `fnTest.test(prop[name])`: the regex coerces its argument to the
function's source text; the embedded function literal carries the answer. On a
non-function the surrounding conjunct is already false, so the value returned
here is never observed there. -/
def fnTestTest : JSVal → Bool
  | .fn f => f.refsSuper
  | _ => false

/-- The function literal of a value; only applied under a guard that proved
the value is a function. -/
def fnLitOf : JSVal → FnLit
  | .fn f => f
  | _ => ⟨0, false⟩

/-- One iteration of the member-copy loop of `_Class.extend` (lines 116-147):
the ternary chain quoted above, with `propv` the override value and `basev`
the same-named member of the base prototype. -/
def extendMember (name : String) (propv basev : JSVal) : MemberKind :=
  if typeofJS propv = "function" ∧ typeofJS basev = "function" ∧ fnTestTest propv then
    .superWrapped name (fnLitOf propv)
  else if typeofJS propv = "function" then
    .hooked (fnLitOf propv) [] []
  else if typeofJS propv = "object" ∧ typeofJS basev = "object" then
    .merged basev propv
  else
    .direct propv

/-- Whether a value is structured in the sense the spec states it: a
non-callable, non-primitive value, that is an object reference; `null` is a
primitive and so is not structured. -/
def isStructuredSpec : JSVal → Bool
  | .ref _ => true
  | _ => false

/-- The four-way member classification exactly as the spec words it (spec
section on the builder): parent-delegating when override and base member are
both callable and the override's source references the alias; else hookable
when the override is callable; else recursive merge when both sides are
structured (non-callable, non-primitive) values; else direct assignment. -/
def specClassify (name : String) (propv basev : JSVal) : MemberKind :=
  if typeofJS propv = "function" ∧ typeofJS basev = "function" ∧ fnTestTest propv then
    .superWrapped name (fnLitOf propv)
  else if typeofJS propv = "function" then
    .hooked (fnLitOf propv) [] []
  else if isStructuredSpec propv ∧ isStructuredSpec basev then
    .merged basev propv
  else
    .direct propv

/-- C4, counterexample: a `null` override over a structured base member. The
spec's decision assigns the override value `null` directly (null is not a
structured value, being a primitive), but the code classifies it as a merge
because `typeof null` is "object", so the new prototype member is the merge
expression's object result, never `null`. -/
theorem null_override_not_assigned_directly :
    specClassify "defaults" JSVal.null (JSVal.ref 0) = MemberKind.direct JSVal.null
    ∧ extendMember "defaults" JSVal.null (JSVal.ref 0)
        = MemberKind.merged (JSVal.ref 0) JSVal.null
    ∧ extendMember "defaults" JSVal.null (JSVal.ref 0)
        ≠ MemberKind.direct JSVal.null := by
  refine ⟨rfl, rfl, ?_⟩
  decide

/-- C4, amended: the code's four-way decision agrees with the spec's on every
override entry in which neither side is the value `null`; the structured test
the code performs is `typeof == "object"`, which `null` also passes, so a
`null` override over a base member of typeof "object" is classified as a merge
rather than assigned directly. -/
theorem classification_four_way_amended (name : String) (propv basev : JSVal) :
    (propv ≠ JSVal.null → basev ≠ JSVal.null →
      extendMember name propv basev = specClassify name propv basev)
    ∧ (typeofJS basev = "object" →
      extendMember name JSVal.null basev = MemberKind.merged basev JSVal.null) := by
  constructor
  · intro hp hb
    cases propv <;> cases basev <;> simp_all [extendMember, specClassify, typeofJS, isStructuredSpec]
  · intro hb
    cases basev <;> simp_all [extendMember, typeofJS, fnTestTest]

/-- C4, witness: the amended theorem applied at concrete inputs, a
parent-call-referencing function override over a function base member, and a
null override over an object base member. -/
theorem classification_four_way_amended_witness :
    extendMember "m" (JSVal.fn ⟨1, true⟩) (JSVal.fn ⟨2, false⟩)
      = specClassify "m" (JSVal.fn ⟨1, true⟩) (JSVal.fn ⟨2, false⟩)
    ∧ extendMember "d" JSVal.null (JSVal.ref 0)
      = MemberKind.merged (JSVal.ref 0) JSVal.null :=
  ⟨(classification_four_way_amended "m" (JSVal.fn ⟨1, true⟩) (JSVal.fn ⟨2, false⟩)).1
      (by decide) (by decide),
    (classification_four_way_amended "d" JSVal.null (JSVal.ref 0)).2 (by decide)⟩

/-! ### Super resolver: the wrapper closure of `_Class.extend` (lines 123-138)

The wrapper produced for a parent-delegating override is

  function() {
    var tmp = this._super;
    this._super = _super[name];
    var ret = fn.apply(this, arguments);
    this._super = tmp;
    return ret;
  }

There is no try/finally: the restoring assignment runs only when `fn` returns
normally. The receiver state relevant to these claims is its `_super` slot;
the override bodies the claims quantify over either call `this._super` with
the same receiver and arguments, or throw. -/

/-- An override body passed to `extend` for a parent-delegating member: it
runs (tagged, with the call's arguments observable), and either invokes
`this._super.apply(this, arguments)` and returns its result, or throws. Both
shapes reference the alias identifier in their source, so `fnTest` accepts
them. -/
inductive OBody where
  | callSuper (tag : Nat)
  | throws (tag : Nat)
deriving DecidableEq, Repr

/-- A method implementation as stored on a prototype: the root implementation
of the base class, or a wrapper built by `extend` over the immediate parent
prototype's member of the same name, captured via the closure's `_super`
variable at extension time. -/
inductive Method where
  | base (tag : Nat)
  | wrap (parent : Method) (body : OBody)
deriving DecidableEq, Repr

/-- The tag of an override body. -/
def OBody.tag : OBody → Nat
  | .callSuper t => t
  | .throws t => t

/-- The tag of a method implementation. -/
def Method.tag : Method → Nat
  | .base t => t
  | .wrap _ b => b.tag

/-- Observable events of a call: the wrapper assigning the parent
implementation into the receiver's alias slot (`this._super = _super[name]`,
recording the bound implementation's tag), and an override or root body
beginning to run with the arguments it received. -/
inductive Event where
  | bind (superTag : Nat)
  | run (tag : Nat) (args : List Nat)
deriving DecidableEq, Repr

/-- Result of a call: a returned value or a propagated thrown value. -/
inductive CallResult where
  | ok (v : Nat)
  | thrown (e : Nat)
deriving DecidableEq, Repr

/-- Outcome of a call on a receiver: the event trace, the returned value or
the propagated thrown value, and the final contents of the receiver's
`_super` slot. -/
structure ExecOut where
  trace : List Event
  result : CallResult
  slot : Option Method
deriving DecidableEq, Repr

/-- Execution of a method implementation on a receiver whose `_super` slot
currently holds `slot`. A root implementation runs and returns its tag. A
wrapper saves the slot into `tmp`, assigns the captured parent implementation
into the slot, and runs `fn`: a `callSuper` body reads `this._super` (the
parent just assigned) and invokes it with the same receiver and arguments; on
normal return the wrapper restores the slot from `tmp`; when `fn` throws, the
restoring assignment is never reached and the slot is left as the inner
execution left it. -/
def exec : Method → List Nat → Option Method → ExecOut
  | .base t, args, slot => ⟨[.run t args], .ok t, slot⟩
  | .wrap parent (.throws t), args, _slot =>
      ⟨[.bind parent.tag, .run t args], .thrown t, some parent⟩
  | .wrap parent (.callSuper t), args, slot =>
      let inner := exec parent args (some parent)
      match inner.result with
      | .ok v => ⟨.bind parent.tag :: .run t args :: inner.trace, .ok v, slot⟩
      | .thrown e => ⟨.bind parent.tag :: .run t args :: inner.trace, .thrown e, inner.slot⟩

/-- A chain of successive `extend` calls all overriding the same method with a
parent-call body: `mkChain r [t1, ..., tn]` is the leaf method after `n`
extensions of the root implementation `base r`, the leaf's body tagged `t1`.
Each wrapper captures the method of the class it directly extended. -/
def mkChain (rootTag : Nat) : List Nat → Method
  | [] => .base rootTag
  | t :: ts => .wrap (mkChain rootTag ts) (.callSuper t)

/-- The tag of the immediate parent of the next override in a chain. -/
def parentTag (rootTag : Nat) : List Nat → Nat
  | [] => rootTag
  | t :: _ => t

/-- The expected trace of a chain call: each override first binds its
immediate parent's implementation into the alias slot, then runs, then the
parent does the same, down to the root, which just runs; every level receives
the same arguments. -/
def chainTrace (rootTag : Nat) (args : List Nat) : List Nat → List Event
  | [] => [.run rootTag args]
  | t :: ts => .bind (parentTag rootTag ts) :: .run t args :: chainTrace rootTag args ts

theorem mkChain_tag (rootTag : Nat) (ts : List Nat) :
    (mkChain rootTag ts).tag = parentTag rootTag ts := by
  cases ts <;> rfl

theorem exec_mkChain (r : Nat) (ts : List Nat) (args : List Nat) (slot : Option Method) :
    exec (mkChain r ts) args slot = ⟨chainTrace r args ts, .ok r, slot⟩ := by
  induction ts generalizing slot with
  | nil => rfl
  | cons t ts ih =>
      show exec (.wrap (mkChain r ts) (.callSuper t)) args slot = _
      simp only [exec, ih, chainTrace, mkChain_tag]

/-- C3: for a chain of three or more classes built by successive extends, each
overriding the same method with a parent-call body, invoking the leaf method on
any receiver state with any arguments binds, at each level, exactly the
immediate parent implementation captured at that extension (the trace pairs
every override run with a bind of its immediate parent's tag), reaches the root
without skipping a level, returns the root's result, and leaves the alias slot
as it was. -/
theorem super_chain_one_level_at_a_time (r : Nat) (ts : List Nat) (args : List Nat)
    (slot : Option Method) (_hlen : 2 ≤ ts.length) :
    exec (mkChain r ts) args slot = ⟨chainTrace r args ts, .ok r, slot⟩ :=
  exec_mkChain r ts args slot

/-- C3, witness: a three-class chain (root tagged 0, overrides tagged 1 then 2)
called with argument list [7]: the leaf binds its immediate parent (tag 1),
runs, the middle override binds the root (tag 0), runs, and the root runs, all
with the same arguments; the result is the root's and the slot is restored. -/
theorem super_chain_one_level_at_a_time_witness :
    exec (mkChain 0 [2, 1]) [7] none =
      ⟨[.bind 1, .run 2 [7], .bind 0, .run 1 [7], .run 0 [7]], .ok 0, none⟩ :=
  super_chain_one_level_at_a_time 0 [2, 1] [7] none (by decide)

/-- Restoration discipline on the normal path: whenever a call returns without
throwing, the receiver's alias slot ends exactly where it started. -/
theorem exec_ok_slot (m : Method) (args : List Nat) (slot : Option Method) (v : Nat)
    (h : (exec m args slot).result = .ok v) : (exec m args slot).slot = slot := by
  cases m with
  | base t => rfl
  | wrap parent body =>
      cases body with
      | throws t => simp [exec] at h
      | callSuper t =>
          simp only [exec] at h ⊢
          cases hE : (exec parent args (some parent)).result with
          | ok w => simp [hE]
          | thrown e => simp [hE] at h

/-- C1, counterexample: a parent-delegating wrapper whose override body throws.
Before the call the receiver's alias slot is absent; the error propagates with
the slot still holding the parent implementation installed on entry, not the
saved absent value, so the claimed exception-safe restore fails. -/
theorem throwing_override_leaks_super_alias :
    exec (.wrap (.base 0) (.throws 1)) [] none =
      ⟨[.bind 0, .run 1 []], .thrown 1, some (.base 0)⟩
    ∧ (exec (.wrap (.base 0) (.throws 1)) [] none).slot ≠ none := by
  refine ⟨rfl, ?_⟩
  decide

/-- C1, amended: the save/restore of the alias slot is not exception-safe.
When the override body throws, the wrapper's restoring assignment never runs:
the slot is left holding the parent implementation installed on entry and the
error propagates with that leaked alias; the slot is restored to its prior
value only when the override returns normally. -/
theorem super_alias_restored_only_on_normal_return (parent : Method) (t : Nat)
    (args : List Nat) (slot : Option Method) :
    exec (.wrap parent (.throws t)) args slot =
      ⟨[.bind parent.tag, .run t args], .thrown t, some parent⟩
    ∧ (∀ (m : Method) (args' : List Nat) (slot' : Option Method) (v : Nat),
        (exec m args' slot').result = .ok v → (exec m args' slot').slot = slot') :=
  ⟨rfl, fun m args' slot' v h => exec_ok_slot m args' slot' v h⟩

/-- C1 amended, witness: the throwing wrapper over root tag 5 with body tag 6,
called with argument [1] on a receiver with an absent alias, leaves the slot
holding the parent; and a normally returning call (the root implementation)
leaves the slot untouched. -/
theorem super_alias_restored_only_on_normal_return_witness :
    exec (.wrap (.base 5) (.throws 6)) [1] none =
      ⟨[.bind 5, .run 6 [1]], .thrown 6, some (.base 5)⟩
    ∧ (exec (.base 5) [] none).slot = none := by
  have h := super_alias_restored_only_on_normal_return (.base 5) 6 [1] none
  exact ⟨h.1, h.2 (.base 5) [] none 5 rfl⟩

/-! ### Hookable wrapper: `hookable` and `hookableFunction` (lines 29-90)

A wrapped function closes over a registry `hooks = { before: [], after: [] }`.
Invocation runs every before hook, then the wrapped function (capturing its
result), then every after hook, and returns the captured result. Each source
loop advances while `hooks.before[i]` (resp. `hooks.after[i]`) is truthy;
registered hooks are functions and functions are truthy, so the loops traverse
the registered lists in order. -/

/-- A function value used as a hook or as the wrapped function: an identity
tag and its return value as a function of the receiver and the arguments. -/
structure JFun where
  id : Nat
  ret : Nat → List Nat → Nat

/-- One observed invocation: which function ran, on which receiver, with which
arguments. -/
structure CallEv where
  fnId : Nat
  recv : Nat
  args : List Nat
deriving DecidableEq, Repr

/-- The hook registry of one hookable wrapper (lines 32-35). -/
structure Hooks where
  before : List JFun
  after : List JFun

/-- One of the source's hook loops: invoke each registered hook in order with
the same receiver and arguments; the hooks' return values are not consumed,
only the invocation is observable. -/
def runHookLoop : List JFun → Nat → List Nat → List CallEv
  | [], _, _ => []
  | hk :: t, recv, args => ⟨hk.id, recv, args⟩ :: runHookLoop t recv args

/-- The wrapper body `hookableFunction` (lines 37-51): the before loop, the
call `ifn.apply(this, arguments)` whose result is captured in `r`, the after
loop, then `return r`. Before hooks receive the copied argument array `args`
and the wrapped function the original `arguments`; both hold the same values. -/
def hookableFunction (ifn : JFun) (hooks : Hooks) (recv : Nat) (args : List Nat) :
    List CallEv × Nat :=
  let beforeEvs := runHookLoop hooks.before recv args
  let r := ifn.ret recv args
  let afterEvs := runHookLoop hooks.after recv args
  (beforeEvs ++ ⟨ifn.id, recv, args⟩ :: afterEvs, r)

/-- C5: with before hooks [a, b] and after hooks [c, d] registered in that
order, one invocation on receiver recv with arguments args performs exactly
the five calls a, b, wrapped function, c, d, each with that same receiver and
those same arguments, and returns the wrapped function's result; the hooks'
own return values do not appear in the outcome. -/
theorem hookable_call_runs_hooks_in_order (ifn a b c d : JFun) (recv : Nat)
    (args : List Nat) :
    hookableFunction ifn ⟨[a, b], [c, d]⟩ recv args =
      ([⟨a.id, recv, args⟩, ⟨b.id, recv, args⟩, ⟨ifn.id, recv, args⟩,
        ⟨c.id, recv, args⟩, ⟨d.id, recv, args⟩], ifn.ret recv args) :=
  rfl

/-- The error thrown by `addHook` on an unknown hook type (lines 80-85): the
message, the accepted keys `Object.keys(hooks)`, and the rejected value. -/
structure HookError where
  message : String
  expected : List String
  got : String
deriving DecidableEq, Repr

/-- The own keys of the registry object, in insertion order (lines 32-35). -/
def hooksKeys : List String := ["before", "after"]

/-- The registration method `addHook` (lines 76-87): `hooks[type]` is an Array
exactly for the registry's two own keys "before" and "after" (every other
lookup yields `undefined` or an inherited non-Array member), so those push the
callback onto the named list; any other type throws an Error with message
"Invalid hook type" carrying `expected = Object.keys(hooks)` and `got = type`,
the registry untouched. The returned pair is the registry after the call and
the thrown error, if any. -/
def addHook (hooks : Hooks) (type : String) (f : JFun) : Hooks × Option HookError :=
  if type = "before" then
    ({ hooks with before := hooks.before ++ [f] }, none)
  else if type = "after" then
    ({ hooks with after := hooks.after ++ [f] }, none)
  else
    (hooks, some ⟨"Invalid hook type", hooksKeys, type⟩)

/-- C6: registering with type "before" or "after" appends the callback to the
corresponding sequence and throws nothing; registering with any other type
throws the invalid-hook-type error carrying the accepted set [before, after]
and the rejected value, and leaves the registry exactly as it was. -/
theorem addHook_appends_or_raises_invalid_hook_type (hooks : Hooks) (type : String)
    (f : JFun) :
    (type = "before" →
      addHook hooks type f = (⟨hooks.before ++ [f], hooks.after⟩, none))
    ∧ (type = "after" →
      addHook hooks type f = (⟨hooks.before, hooks.after ++ [f]⟩, none))
    ∧ (type ≠ "before" → type ≠ "after" →
      addHook hooks type f = (hooks, some ⟨"Invalid hook type", ["before", "after"], type⟩)) := by
  refine ⟨?_, ?_, ?_⟩
  · intro h
    subst h
    rfl
  · intro h
    subst h
    rfl
  · intro h1 h2
    simp [addHook, h1, h2, hooksKeys]

/-- C6, witness: registering with the unknown type "sideways" on the empty
registry throws the error with expected [before, after] and got "sideways",
leaving the registry unchanged. -/
theorem addHook_appends_or_raises_invalid_hook_type_witness :
    addHook ⟨[], []⟩ "sideways" ⟨9, fun _ _ => 0⟩ =
      (⟨[], []⟩, some ⟨"Invalid hook type", ["before", "after"], "sideways"⟩) :=
  (addHook_appends_or_raises_invalid_hook_type ⟨[], []⟩ "sideways" ⟨9, fun _ _ => 0⟩).2.2
    (by decide) (by decide)

/-! ### Constructor wiring: the dummy constructor and the suppression flag

The dummy class constructor (lines 150-154) runs the deferred initializer only
outside the construction-suppression state:

  function _Class() {
    if ( !initializing && this.init )
      this.init.apply(this, arguments);
  }

and the skeleton instantiation inside `extend` (lines 111-113) wraps the one
internal `new this()` in `initializing = true; ...; initializing = false`. -/

/-- Observable constructor event: the deferred initializer ran with the
constructor-invocation arguments. -/
inductive CtorEvent where
  | initCall (args : List JSVal)
deriving DecidableEq, Repr

/-- The dummy class constructor (lines 150-154): when the suppression flag is
down and the instance resolves a truthy `init` member, apply it to the
invocation arguments; otherwise do nothing. -/
def dummyCtor (initializing : Bool) (hasInit : Bool) (args : List JSVal) : List CtorEvent :=
  if !initializing && hasInit then [.initCall args] else []

/-- The skeleton instantiation inside `extend` (lines 111-113): raise the
suppression flag, run `new this()` (the base constructor, no arguments), lower
the flag; returns the constructor events and the flag's final state. -/
def skeletonInstantiate (hasInit : Bool) : List CtorEvent × Bool :=
  let flagDuring := true
  let evs := dummyCtor flagDuring hasInit []
  let flagAfter := false
  (evs, flagAfter)

/-- C7: invoking a constructed class's constructor outside the suppression
state runs `init` with exactly the invocation arguments when the instance has
an `init`, and performs no initializer call when it has none; the one internal
skeleton instantiation inside `extend` runs under the raised flag, never runs
`init` whether or not one is defined, and lowers the flag afterwards. -/
theorem ctor_runs_init_outside_suppression (args : List JSVal) (hasInit : Bool) :
    dummyCtor false true args = [.initCall args]
    ∧ dummyCtor false false args = []
    ∧ skeletonInstantiate hasInit = ([], false) := by
  refine ⟨rfl, rfl, ?_⟩
  cases hasInit <;> rfl

/-! ### The structured-override branch of the copy loop (line 146)

When both sides have typeof "object" the loop assigns
`prototype[name] = jQuery.extend(true, _super[name], prop[name])`: the merge
target passed to the collaborator is the base prototype's member object
itself, not a fresh object. -/

/-- Modelled from the spec: the deep-merge collaborator, an external
dependency the spec scopes out and specifies only as "merge B into A
recursively, B wins on conflicts"; `jQuery.extend(true, A, B)` merges the
source into the target object and returns the target. Modelled here at one
level of primitive-valued keys, which is all the settled scenarios use. -/
def mergeObj (a b : Obj) : Obj :=
  b.foldl (fun acc kv => objSet acc kv.1 kv.2) a

/-- The merge branch of the copy loop (line 146) at heap level: the object at
the base member's address is updated in place with the override merged in, and
the value stored on the new prototype is the very same reference. -/
def extendMergeBranch (h : Heap) (a : Nat) (over : Obj) : Heap × JSVal :=
  (heapSet h a (mergeObj (h a) over), .ref a)

theorem objHasKey_iff_mem (o : Obj) (k : String) :
    objHasKey o k = true ↔ k ∈ o.map Prod.fst := by
  rw [objHasKey, List.any_eq_true]
  constructor
  · rintro ⟨x, hx, hk⟩
    exact List.mem_map.mpr ⟨x, hx, of_decide_eq_true hk⟩
  · intro h
    rcases List.mem_map.mp h with ⟨x, hx, hk⟩
    exact ⟨x, hx, decide_eq_true hk⟩

theorem objGet_mergeObj (a b : Obj) (k : String) (hnd : (b.map Prod.fst).Nodup) :
    objGet (mergeObj a b) k = if objHasKey b k then objGet b k else objGet a k := by
  induction b generalizing a with
  | nil => simp [mergeObj, objHasKey]
  | cons kv t ih =>
      obtain ⟨k₀, v₀⟩ := kv
      rw [List.map_cons, List.nodup_cons] at hnd
      have hstep : mergeObj a ((k₀, v₀) :: t) = mergeObj (objSet a k₀ v₀) t := rfl
      rw [hstep, ih (objSet a k₀ v₀) hnd.2]
      by_cases hk : k = k₀
      · subst hk
        have hnot : objHasKey t k = false := by
          rcases hb : objHasKey t k with _ | _
          · rfl
          · exact absurd ((objHasKey_iff_mem t k).mp hb) hnd.1
        have h1 : objGet (objSet a k v₀) k = v₀ := by
          rw [objGet_objSet]
          simp
        have h2 : objHasKey ((k, v₀) :: t) k = true := by
          simp [objHasKey]
        have h3 : objGet ((k, v₀) :: t) k = v₀ := by
          simp [objGet]
        rw [hnot, h1, h2, h3]
        simp
      · have hne : ¬ k₀ = k := fun h => hk h.symm
        have hcons : objHasKey ((k₀, v₀) :: t) k = objHasKey t k := by
          simp [objHasKey, List.any_cons, hne]
        have hgcons : objGet ((k₀, v₀) :: t) k = objGet t k := by
          simp [objGet, hne]
        have hgset : objGet (objSet a k₀ v₀) k = objGet a k := by
          rw [objGet_objSet]
          simp [hne]
        rw [hcons, hgcons, hgset]

/-- Heap holding the base class's defaults object `{a: 1, b: 2}` at address 0. -/
def c2Heap : Heap := heapSet emptyHeap 0 [("a", .num 1), ("b", .num 2)]

/-- The merge branch applied to that base member with the override
`{b: 3, c: 4}`. -/
def c2Out : Heap × JSVal := extendMergeBranch c2Heap 0 [("b", .num 3), ("c", .num 4)]

/-- C2, counterexample: extending a class whose defaults object is
`{a: 1, b: 2}` with the override `{b: 3, c: 4}`. The new prototype receives a
reference to the same address, and after the call the base class's own
defaults object holds `{a: 1, b: 3, c: 4}`: it is not left unmodified, and the
assigned value is not a merged copy but the mutated base member itself. -/
theorem extend_merge_modifies_base_defaults :
    c2Out.2 = JSVal.ref 0
    ∧ c2Out.1 0 = [("a", JSVal.num 1), ("b", JSVal.num 3), ("c", JSVal.num 4)]
    ∧ c2Out.1 0 ≠ [("a", JSVal.num 1), ("b", JSVal.num 2)] := by
  refine ⟨rfl, rfl, ?_⟩
  decide

/-- C2, amended: when both the override and the same-named base member are
structured values, extend merges the override into the base prototype's member
object in place (override wins on key conflicts) and assigns that very
reference, not a copy, to the new prototype; the base class's own member is
thereby mutated to the merged object and shared with the new class. -/
theorem extend_merge_targets_base_member_in_place (h : Heap) (a : Nat) (over : Obj)
    (k : String) (hnd : (over.map Prod.fst).Nodup) :
    (extendMergeBranch h a over).2 = JSVal.ref a
    ∧ (extendMergeBranch h a over).1 a = mergeObj (h a) over
    ∧ objGet ((extendMergeBranch h a over).1 a) k =
        (if objHasKey over k then objGet over k else objGet (h a) k) :=
  ⟨rfl, heapSet_same h a (mergeObj (h a) over), by
    show objGet (heapSet h a (mergeObj (h a) over) a) k = _
    rw [heapSet_same]
    exact objGet_mergeObj (h a) over k hnd⟩

/-- C2 amended, witness: the spec's own example, read at the conflicting key
"b" and the inherited key "a": the merged object at the base member's address
resolves "b" to the override's value and "a" to the base's, and the assigned
value is the reference to that address. -/
theorem extend_merge_targets_base_member_in_place_witness :
    c2Out.2 = JSVal.ref 0
    ∧ c2Out.1 0 = mergeObj (c2Heap 0) [("b", JSVal.num 3), ("c", JSVal.num 4)]
    ∧ objGet (c2Out.1 0) "b" = JSVal.num 3 := by
  have hthm := extend_merge_targets_base_member_in_place c2Heap 0
    [("b", JSVal.num 3), ("c", JSVal.num 4)] "b" (by decide)
  exact ⟨hthm.1, hthm.2.1, hthm.2.2⟩

/-! ### The base Class (lines 200-285)

`Class = _Class.extend({...})` with members `$element: null`,
`defaults: {}`, `options: {}`, and the functions `init`, `setOptions`, `set`,
`get`, `getElement`, `getRawElement`, `uid`. The base `_Class.prototype` has
none of these members, so every entry is classified as a fresh hookable
function or, for `$element`, `defaults` and `options`, assigned directly: the
prototype stores references to the two literal objects themselves. -/

/-- Address of the single defaults object the Class prototype references. -/
def defaultsAddr : Nat := 0

/-- Address of the single options object the Class prototype references. -/
def optionsAddr : Nat := 1

/-- The prototype object of the base Class (lines 200-285): the two data
members reference the literal objects created once at class definition (both
initially empty, so the empty heap already holds them), and the seven methods
are function members. Function tags are arbitrary distinct identities. -/
def classProto : Obj :=
  [("$element", .null),
   ("defaults", .ref defaultsAddr),
   ("options", .ref optionsAddr),
   ("init", .fn ⟨1, false⟩),
   ("setOptions", .fn ⟨2, false⟩),
   ("set", .fn ⟨3, false⟩),
   ("get", .fn ⟨4, false⟩),
   ("getElement", .fn ⟨5, false⟩),
   ("getRawElement", .fn ⟨6, false⟩),
   ("uid", .fn ⟨7, false⟩)]

/-- Justification that the two data members are assigned directly by the copy
loop: the base `_Class.prototype` has no such members, so the classification
falls through to direct assignment of the reference. -/
theorem defaults_and_options_assigned_directly :
    extendMember "defaults" (JSVal.ref defaultsAddr) JSVal.undef
      = MemberKind.direct (JSVal.ref defaultsAddr)
    ∧ extendMember "options" (JSVal.ref optionsAddr) JSVal.undef
      = MemberKind.direct (JSVal.ref optionsAddr) := by
  refine ⟨?_, ?_⟩ <;> rfl

/-- Property lookup on a receiver: its own object first, else the prototype,
as prototype-chain resolution does. -/
def protoLookup (h : Heap) (proto : Obj) (self : Nat) (k : String) : JSVal :=
  if objGet (h self) k ≠ .undef then objGet (h self) k else objGet proto k

theorem protoLookup_heapSet_other (h : Heap) (proto : Obj) (self a : Nat) (o : Obj)
    (k : String) (hne : self ≠ a) :
    protoLookup (heapSet h a o) proto self k = protoLookup h proto self k := by
  simp [protoLookup, heapSet_other h a self o hne]

/-- The own properties `init` gives an instance (lines 216-220): it assigns
`this.$element = jQuery(element)` and, when options are passed, calls
`setOptions`, which writes through the shared options reference and creates no
own property; so an instance's own properties are exactly `$element`. -/
def Class.initOwnProps (elt : JSVal) : Obj := [("$element", elt)]

/-- The method `set` (lines 242-245): `this.options[name] = value; return
this;`. The receiver resolves `options` through the prototype to the shared
object's reference, and the assignment mutates the object at that address; the
returned value is the receiver itself. Resolving `options` to anything but an
object reference would make the assignment throw and is unreachable for Class
instances. -/
def Class.set (h : Heap) (self : Nat) (name : String) (v : JSVal) : Heap × Nat :=
  match protoLookup h classProto self "options" with
  | .ref a => (heapSet h a (objSet (h a) name v), self)
  | _ => (h, self)

/-- The method `get` (lines 255-257): `typeof this.options[name] !=
'undefined' ? this.options[name] : def`. -/
def Class.get (h : Heap) (self : Nat) (name : String) (d : JSVal) : JSVal :=
  match protoLookup h classProto self "options" with
  | .ref a => if objGet (h a) name ≠ .undef then objGet (h a) name else d
  | _ => d

/-- C8: on a Class receiver whose `options` resolves to the shared options
object, after `set name value` a `get name fallback` returns the value
whenever the value is defined; `get` returns the fallback whenever the option
is absent (undefined) in the options mapping; and `set` returns the receiver
itself. -/
theorem set_get_roundtrip_and_fallback (h : Heap) (self a : Nat) (name : String)
    (v d : JSVal) (hopt : protoLookup h classProto self "options" = .ref a)
    (hsa : self ≠ a) :
    (v ≠ JSVal.undef → Class.get (Class.set h self name v).1 self name d = v)
    ∧ (objGet (h a) name = JSVal.undef → Class.get h self name d = d)
    ∧ (Class.set h self name v).2 = self := by
  have hset : Class.set h self name v = (heapSet h a (objSet (h a) name v), self) := by
    simp [Class.set, hopt]
  refine ⟨?_, ?_, ?_⟩
  · intro hv
    have hopt' : protoLookup (heapSet h a (objSet (h a) name v)) classProto self "options"
        = .ref a := by
      rw [protoLookup_heapSet_other h classProto self a _ "options" hsa]
      exact hopt
    rw [hset]
    simp [Class.get, hopt', heapSet_same, objGet_objSet, hv]
  · intro habs
    simp [Class.get, hopt, habs]
  · rw [hset]

/-- C8, witness: an instance at address 2 whose only own property is
`$element`; setting option x to 5 then reading it back yields 5, reading the
absent option x on the untouched heap yields the fallback 9, and `set` returns
the receiver address. -/
theorem set_get_roundtrip_and_fallback_witness :
    Class.get (Class.set (heapSet emptyHeap 2 [("$element", JSVal.str "e")]) 2 "x"
        (JSVal.num 5)).1 2 "x" (JSVal.num 9) = JSVal.num 5
    ∧ Class.get (heapSet emptyHeap 2 [("$element", JSVal.str "e")]) 2 "x"
        (JSVal.num 9) = JSVal.num 9
    ∧ (Class.set (heapSet emptyHeap 2 [("$element", JSVal.str "e")]) 2 "x"
        (JSVal.num 5)).2 = 2 := by
  have hthm := set_get_roundtrip_and_fallback
    (heapSet emptyHeap 2 [("$element", JSVal.str "e")]) 2 1 "x"
    (JSVal.num 5) (JSVal.num 9) (by decide) (by decide)
  exact ⟨hthm.1 (by decide), hthm.2.1 (by decide), hthm.2.2⟩

/-- Heap holding two freshly initialized instances at addresses 2 and 3; the
shared defaults and options objects live at addresses 0 and 1 and start empty,
as in the empty heap. -/
def twoInstanceHeap (own1 own2 : Obj) : Heap :=
  heapSet (heapSet emptyHeap 2 own1) 3 own2

/-- C9: the defaults and options mappings are single objects referenced from
the Class prototype: two instances that do not shadow them resolve both names
to the same addresses, and a `set` performed through one instance is read back
by `get` on the other, so per-instance option isolation does not hold. -/
theorem options_object_shared_across_instances (own1 own2 : Obj) (name : String)
    (v d : JSVal) (h1 : objGet own1 "options" = JSVal.undef)
    (h2 : objGet own2 "options" = JSVal.undef)
    (hd1 : objGet own1 "defaults" = JSVal.undef)
    (hd2 : objGet own2 "defaults" = JSVal.undef)
    (hv : v ≠ JSVal.undef) :
    protoLookup (twoInstanceHeap own1 own2) classProto 2 "options" = JSVal.ref optionsAddr
    ∧ protoLookup (twoInstanceHeap own1 own2) classProto 3 "options" = JSVal.ref optionsAddr
    ∧ protoLookup (twoInstanceHeap own1 own2) classProto 2 "defaults" = JSVal.ref defaultsAddr
    ∧ protoLookup (twoInstanceHeap own1 own2) classProto 3 "defaults" = JSVal.ref defaultsAddr
    ∧ Class.get (Class.set (twoInstanceHeap own1 own2) 2 name v).1 3 name d = v := by
  have hown2 : twoInstanceHeap own1 own2 2 = own1 := by
    simp [twoInstanceHeap, heapSet]
  have hown3 : twoInstanceHeap own1 own2 3 = own2 := by
    simp [twoInstanceHeap, heapSet]
  have hopt2 : protoLookup (twoInstanceHeap own1 own2) classProto 2 "options"
      = JSVal.ref optionsAddr := by
    simp [protoLookup, hown2, h1, classProto, objGet]
  have hopt3 : protoLookup (twoInstanceHeap own1 own2) classProto 3 "options"
      = JSVal.ref optionsAddr := by
    simp [protoLookup, hown3, h2, classProto, objGet]
  have hdef2 : protoLookup (twoInstanceHeap own1 own2) classProto 2 "defaults"
      = JSVal.ref defaultsAddr := by
    simp [protoLookup, hown2, hd1, classProto, objGet]
  have hdef3 : protoLookup (twoInstanceHeap own1 own2) classProto 3 "defaults"
      = JSVal.ref defaultsAddr := by
    simp [protoLookup, hown3, hd2, classProto, objGet]
  refine ⟨hopt2, hopt3, hdef2, hdef3, ?_⟩
  have hset : Class.set (twoInstanceHeap own1 own2) 2 name v
      = (heapSet (twoInstanceHeap own1 own2) optionsAddr
          (objSet (twoInstanceHeap own1 own2 optionsAddr) name v), 2) := by
    simp [Class.set, hopt2]
  have hopt3' : protoLookup (heapSet (twoInstanceHeap own1 own2) optionsAddr
      (objSet (twoInstanceHeap own1 own2 optionsAddr) name v)) classProto 3 "options"
      = JSVal.ref optionsAddr := by
    rw [protoLookup_heapSet_other _ classProto 3 optionsAddr _ "options" (by decide)]
    exact hopt3
  rw [hset]
  simp [Class.get, hopt3', heapSet_same, objGet_objSet, hv]

/-- C9, witness: two instances at addresses 2 and 3 holding only their own
`$element`; both resolve options and defaults to the shared addresses, and
setting option x to 5 through the first instance is read back through the
second. -/
theorem options_object_shared_across_instances_witness :
    protoLookup (twoInstanceHeap [("$element", JSVal.str "e1")]
        [("$element", JSVal.str "e2")]) classProto 2 "options" = JSVal.ref optionsAddr
    ∧ protoLookup (twoInstanceHeap [("$element", JSVal.str "e1")]
        [("$element", JSVal.str "e2")]) classProto 3 "options" = JSVal.ref optionsAddr
    ∧ protoLookup (twoInstanceHeap [("$element", JSVal.str "e1")]
        [("$element", JSVal.str "e2")]) classProto 2 "defaults" = JSVal.ref defaultsAddr
    ∧ protoLookup (twoInstanceHeap [("$element", JSVal.str "e1")]
        [("$element", JSVal.str "e2")]) classProto 3 "defaults" = JSVal.ref defaultsAddr
    ∧ Class.get (Class.set (twoInstanceHeap [("$element", JSVal.str "e1")]
        [("$element", JSVal.str "e2")]) 2 "x" (JSVal.num 5)).1 3 "x" (JSVal.num 9)
      = JSVal.num 5 :=
  options_object_shared_across_instances [("$element", JSVal.str "e1")]
    [("$element", JSVal.str "e2")] "x" (JSVal.num 5) (JSVal.num 9)
    (by decide) (by decide) (by decide) (by decide) (by decide)

/-- Outcome of evaluating `this.element().context` up to the method call:
either the member `element` resolved to a function that would now be invoked,
or it did not and the invocation raises a TypeError. -/
inductive RawElemOutcome where
  | typeError
  | callsElement (f : FnLit)
deriving DecidableEq, Repr

/-- The method `getRawElement` (lines 273-275): `return this.element().context;`.
It resolves the member `element` on the receiver and invokes it; invoking a
non-function raises a TypeError, and the `.context` read happens only after a
successful call. -/
def Class.getRawElement (h : Heap) (self : Nat) : RawElemOutcome :=
  match protoLookup h classProto self "element" with
  | .fn f => .callsElement f
  | _ => .typeError

/-- C10: on every Class instance, whose own properties are those `init`
created, `getRawElement` raises a TypeError: the Class prototype defines no
member named `element` (the accessor is named `getElement`, which is a
function member), so `this.element` is undefined and the call never returns
the raw element. -/
theorem getRawElement_raises_type_error (h : Heap) (self : Nat) (elt : JSVal)
    (hown : h self = Class.initOwnProps elt) :
    Class.getRawElement h self = RawElemOutcome.typeError
    ∧ objGet classProto "element" = JSVal.undef
    ∧ typeofJS (objGet classProto "getElement") = "function" := by
  have hlook : protoLookup h classProto self "element" = JSVal.undef := by
    simp [protoLookup, hown, Class.initOwnProps, objGet, classProto]
  refine ⟨?_, ?_, ?_⟩
  · simp [Class.getRawElement, hlook]
  · rfl
  · rfl

/-- C10, witness: an instance at address 2 initialized with element "e":
`getRawElement` raises, no prototype member `element` exists, and
`getElement` is the function-valued accessor. -/
theorem getRawElement_raises_type_error_witness :
    Class.getRawElement (heapSet emptyHeap 2 (Class.initOwnProps (JSVal.str "e"))) 2
      = RawElemOutcome.typeError
    ∧ objGet classProto "element" = JSVal.undef
    ∧ typeofJS (objGet classProto "getElement") = "function" :=
  getRawElement_raises_type_error (heapSet emptyHeap 2 (Class.initOwnProps (JSVal.str "e")))
    2 (JSVal.str "e") (by decide)

end JQueryClass
